import Mathlib

/-
Verification of the pad-tickler CBC padding-oracle solver core.

Shallow embedding of:
  src/pad_tickler/solver.py        (submit/solve loop, _confirm_hit, solve_message)
  src/pad_tickler/state_queue.py   (SingleSlotQueue)
  src/pad_tickler/state_snapshot.py (StateSnapshot, as constructed by solver.py)

Bytes are Nat (all inputs < 256; XOR preserves that range, and the source
performs no masking, per the design notes).  Mutable Python lists of
Optional bytes (intermediate_blocks, plaintext_blocks) are modelled as
functions Nat -> Nat -> Option Nat with pointwise update; the bytearray
list ciphertext_prime_blocks is a List of Lists updated with List.set.
Oracle calls are a pure function Block -> Block -> Bool (the source treats
submit as such).  Every oracle call and queue operation is recorded in an
event trace so the publish cadence and channel discipline can be stated.

An important fact about the staged source: state_snapshot.py defines
StateSnapshot with fields state_version, block_count, block_size,
block_index_n, byte_index_i, byte_value_g, pad_length_k, ciphertext_n,
ciphertext_n_1_prime, intermediate_n, plaintext_n -- there is no field
named complete, ciphertext, ciphertext_prime, intermediate or plaintext.
All three constructor calls in solver.py (lines 121, 171, 232) pass
exactly those five keywords, so every such call raises TypeError (a
dataclass init rejects unknown keywords).  The first call sits at the top
of the block loop, before the first oracle probe, so on every
block-aligned input with at least two blocks the run dies there, the
except clause swallows the TypeError, and finally closes the queue.  The
development therefore carries two models:

  solveBodyStaged / solve_messageStaged -- the staged source exactly:
    no probe, no publish, no commit ever happens; the internal error is
    ZeroDivisionError (B = 0), AssertionError (misaligned), NameError
    (N < 2: the final snapshot reads the unbound loop variable
    block_index_n while evaluating its arguments) or TypeError (N >= 2:
    the block-start StateSnapshot call).

  solveBody / solve_message and the loop functions below -- the solver
    with the snapshot constructor repaired to accept the call-site
    fields (the evident intent: ui.py reads exactly those field names).
    The loop-level and per-operation theorems (commit arithmetic,
    confirmation probe, tail programming, channel discipline) are about
    this code as written and do not become easier through the repair.
-/

namespace PadTickler

abbrev Block := List Nat

/-- Storage for intermediate_blocks / plaintext_blocks: Python lists of
Optional bytes, modelled as a function from (block, byte) to Option Nat. -/
abbrev Store := Nat → Nat → Option Nat

def Store.empty : Store := fun _ _ => none

/-- Pointwise update, the model of `blocks[n][i] = v` on a list of lists. -/
def Store.set2 (s : Store) (n i v : Nat) : Store :=
  fun a b => if a = n ∧ b = i then some v else s a b

/-- A snapshot field built from a list of blocks.  The source builds
`tuple(tuple(block) for block in ...)` for ciphertext and ciphertext_prime
(a value copy), but passes `intermediate_blocks` / `plaintext_blocks`
directly (a reference that aliases the solver's live storage). -/
inductive CopyOrRefL where
  | copy (v : List Block)
  | ref

/-- Same distinction for the Option-valued stores. -/
inductive CopyOrRefF where
  | copy (v : Store)
  | ref

/-- Reading a snapshot field at a later time: a copy is immutable, a
reference reads the solver's live storage as it is at that time. -/
def CopyOrRefL.read : CopyOrRefL → List Block → List Block
  | .copy v, _ => v
  | .ref, live => live

def CopyOrRefF.read : CopyOrRefF → Store → Store
  | .copy v, _ => v
  | .ref, live => live

def CopyOrRefL.isCopy : CopyOrRefL → Bool
  | .copy _ => true
  | .ref => false

def CopyOrRefF.isRef : CopyOrRefF → Bool
  | .copy _ => false
  | .ref => true

/-- The snapshot record with the fields solve_message passes at its three
constructor calls.  The staged state_snapshot.py dataclass has different
field names (ciphertext_n, ciphertext_n_1_prime, intermediate_n,
plaintext_n) and no complete field, so the real call raises TypeError;
this record is the snapshot the repaired constructor would build, used by
the loop-level model.  solveBodyStaged models the staged failure. -/
structure Snap where
  stateVersion : Nat
  complete : Bool
  blockCount : Nat
  blockSize : Nat
  blockIndexN : Nat
  byteIndexI : Nat
  byteValueG : Nat
  padLengthK : Nat
  ciphertext : CopyOrRefL
  ciphertextPrime : CopyOrRefL
  intermediateFld : CopyOrRefF
  plaintextFld : CopyOrRefF

/-- Observable events of one solve_message run: snapshot publishes (with the
live stores at publish time recorded for specification purposes), the three
kinds of oracle submissions, byte commits, and the channel close. -/
inductive Event where
  | publish (s : Snap) (liveInterm livePlain : Store)
  | probeOrig (n : Nat) (prev target : Block) (reply : Bool)
  | probe (n k g : Nat) (prev target : Block) (reply : Bool)
  | probeConfirm (n k g : Nat) (prev target : Block) (reply : Bool)
  | commit (n k i g : Nat)
  | closeCh

/-- Exceptions raised inside the try block of solve_message.
guessExhausted is the RuntimeError at "No valid guess found";
assertionError is the block-alignment assert; nameError is the NameError
hit by the final snapshot's argument evaluation when the block loop never
ran (N < 2); zeroDivisionError is `len(ciphertext) % 0`; typeError is the
TypeError every StateSnapshot(...) call raises in the staged source
(unknown keyword arguments). -/
inductive SolveErr where
  | assertionError
  | zeroDivisionError
  | guessExhausted (n k : Nat)
  | nameError
  | typeError
deriving DecidableEq

/-- Solver state: the mutable ciphertext_prime_blocks, the two Option
stores, the snapshot version counter, the Python locals that survive the
loops (block_index_n, byte_index_i, byte_value_g, pad_length_k, as
Option to model unbound locals), and the event trace. -/
structure SolveSt where
  primes : List Block
  interm : Store
  plain : Store
  version : Nat
  varN : Option Nat
  varI : Option Nat
  varG : Option Nat
  varK : Option Nat
  trace : List Event

def SolveSt.emit (st : SolveSt) (e : Event) : SolveSt :=
  { st with trace := st.trace ++ [e] }

/-- The model of `ps[b][i] = v` on the list of bytearrays. -/
def setPrimeByte (ps : List Block) (b i v : Nat) : List Block :=
  ps.set b ((ps.getD b []).set i v)

/-- The snapshot the repaired constructor would build from the call as it
appears (three times) in solve_message: ciphertext and ciphertext_prime
are copied into tuples, intermediate and plaintext are passed as bare
references.  In the staged source this constructor call raises TypeError
instead (see solveBodyStaged). -/
def mkSnapshot (version : Nat) (complete : Bool) (blockCount blockSize n i g k : Nat)
    (cblocks : List Block) (primes : List Block) : Snap :=
  { stateVersion := version
    complete := complete
    blockCount := blockCount
    blockSize := blockSize
    blockIndexN := n
    byteIndexI := i
    byteValueG := g
    padLengthK := k
    ciphertext := .copy cblocks
    ciphertextPrime := .copy primes
    intermediateFld := .ref
    plaintextFld := .ref }

/-- Increment state_version, build the snapshot from the current state and
publish it (state_queue.publish).  The live stores are recorded in the
event so aliasing behaviour can be stated.  The staged source never
reaches the publish: the construction raises first. -/
def publishSnap (st : SolveSt) (complete : Bool)
    (blockCount blockSize n i g k : Nat) (cblocks : List Block) : SolveSt :=
  let v := st.version + 1
  let s := mkSnapshot v complete blockCount blockSize n i g k cblocks st.primes
  { st with version := v, trace := st.trace ++ [.publish s st.interm st.plain] }

/-- The _confirm_hit helper.  Returns (confirmed, flip index as in the
source, and the confirmation probe actually sent, if any). -/
def confirmHit (oracle : Block → Block → Bool) (cprevPrime ctarget : Block)
    (k : Nat) : Bool × Int × Option Block :=
  let bsz := ctarget.length
  let fi : Int := (bsz : Int) - (k : Int) - 1
  if fi < 0 then (true, -1, none)
  else
    let f := fi.toNat
    let c2 := cprevPrime.set f ((cprevPrime.getD f 0) ^^^ 1)
    (oracle c2 ctarget, fi, some c2)

/-- Outcome of one iteration of the guess loop. -/
inductive StepOut where
  | skipped (st : SolveSt)
  | miss (st : SolveSt)
  | rejected (st : SolveSt)
  | committed (st : SolveSt)

def StepOut.st : StepOut → SolveSt
  | .skipped st => st
  | .miss st => st
  | .rejected st => st
  | .committed st => st

/-- One iteration of `for byte_value_g in range(256)`: read the current
previous-block byte, apply the k=1 skip, write the guess, publish a
snapshot, probe, and on a hit run the confirmation flip and commit. -/
def bruteStep (oracle : Block → Block → Bool) (cblocks : List Block)
    (blockCount blockSize n k g : Nat) (target : Block) (st : SolveSt) : StepOut :=
  let i := blockSize - k
  let st := { st with varG := some g }
  let origByte := (st.primes.getD (n - 1) []).getD i 0
  if k = 1 ∧ g = origByte then .skipped st
  else
    let st := { st with primes := setPrimeByte st.primes (n - 1) i g }
    let st := publishSnap st false blockCount blockSize n i g k cblocks
    let prevNow := st.primes.getD (n - 1) []
    let ok := oracle prevNow target
    let st := st.emit (.probe n k g prevNow target ok)
    if ok = false then .miss st
    else
      let ch := confirmHit oracle prevNow target k
      let st := match ch.2.2 with
        | some c2 => st.emit (.probeConfirm n k g c2 target ch.1)
        | none => st
      if ch.1 then
        let vI := g ^^^ k
        let st := { st with interm := st.interm.set2 n i vI }
        let prevBlock := cblocks.getD (n - 1) []
        let vP := (prevBlock.getD i 0) ^^^ vI
        let st := { st with plain := st.plain.set2 n i vP }
        .committed (st.emit (.commit n k i g))
      else .rejected st

/-- The guess loop proper; returns (found, state). -/
def bruteLoop (oracle : Block → Block → Bool) (cblocks : List Block)
    (blockCount blockSize n k : Nat) (target : Block)
    (gs : List Nat) (st : SolveSt) : Bool × SolveSt :=
  match gs with
  | [] => (false, st)
  | g :: rest =>
    match bruteStep oracle cblocks blockCount blockSize n k g target st with
    | .committed st' => (true, st')
    | .skipped st' => bruteLoop oracle cblocks blockCount blockSize n k target rest st'
    | .miss st' => bruteLoop oracle cblocks blockCount blockSize n k target rest st'
    | .rejected st' => bruteLoop oracle cblocks blockCount blockSize n k target rest st'

/-- One tail-programming write: if intermediate_n[j] is solved, set
ciphertext_prime_n1[j] to that value XOR k. -/
def tailWriteOne (n k j : Nat) (st : SolveSt) : SolveSt :=
  match st.interm n j with
  | none => st
  | some v => { st with primes := setPrimeByte st.primes (n - 1) j (v ^^^ k) }

/-- Step 1 of the width-k round: rewrite the solved tail positions. -/
def tailRewrite (n k : Nat) (js : List Nat) (st : SolveSt) : SolveSt :=
  match js with
  | [] => st
  | j :: rest => tailRewrite n k rest (tailWriteOne n k j st)

/-- The `for pad_length_k in range(1, block_size + 1)` loop. -/
def kLoop (oracle : Block → Block → Bool) (cblocks : List Block)
    (blockCount blockSize n : Nat) (target : Block)
    (ks : List Nat) (st : SolveSt) : SolveSt × Option SolveErr :=
  match ks with
  | [] => (st, none)
  | k :: rest =>
    let st := { st with varK := some k }
    let st := tailRewrite n k (List.range' (blockSize - (k - 1)) (k - 1)) st
    let st := { st with varI := some (blockSize - k) }
    match bruteLoop oracle cblocks blockCount blockSize n k target (List.range 256) st with
    | (true, st') => kLoop oracle cblocks blockCount blockSize n target rest st'
    | (false, st') => (st', some (.guessExhausted n k))

/-- The block loop: per target block, publish the block-start snapshot,
probe the original pair (ok_orig, unused for logic), then run the k loop. -/
def blockLoop (oracle : Block → Block → Bool) (cblocks : List Block)
    (blockCount blockSize : Nat) (ns : List Nat) (st : SolveSt) :
    SolveSt × Option SolveErr :=
  match ns with
  | [] => (st, none)
  | n :: rest =>
    let target := cblocks.getD n []
    let st := { st with varN := some n, varG := some 0, varK := some 1 }
    let st := publishSnap st false blockCount blockSize n (blockSize - 1) 0 1 cblocks
    let prev := st.primes.getD (n - 1) []
    let r := oracle prev target
    let st := st.emit (.probeOrig n prev target r)
    match kLoop oracle cblocks blockCount blockSize n target (List.range' 1 blockSize) st with
    | (st', none) => blockLoop oracle cblocks blockCount blockSize rest st'
    | (st', some e) => (st', some e)

/-- Helper for chunkBlocks: structural recursion on a step counter that
bounds the number of blocks (the ciphertext length suffices once B > 0). -/
def chunkBlocksGo (B : Nat) : Nat → List Nat → List Block
  | 0, _ => []
  | _ + 1, [] => []
  | fuel + 1, x :: xs => ((x :: xs).take B) :: chunkBlocksGo B fuel ((x :: xs).drop B)

/-- Splitting the ciphertext into blocks of size B (the slicing loop). -/
def chunkBlocks (ct : List Nat) (B : Nat) : List Block :=
  if B = 0 then [] else chunkBlocksGo B ct.length ct

def initSt (blocks : List Block) : SolveSt :=
  { primes := blocks, interm := Store.empty, plain := Store.empty,
    version := 0, varN := none, varI := none, varG := none, varK := none,
    trace := [] }

structure BodyOut where
  st : SolveSt
  err : Option SolveErr

/-- The body of the try block of solve_message: alignment assert, block
split, the block loop, and the final complete snapshot (which reads the
loop locals and raises NameError if the loop never ran, i.e. N < 2). -/
def solveBody (oracle : Block → Block → Bool) (ciphertext : List Nat)
    (blockSize : Nat) : BodyOut :=
  if blockSize = 0 then ⟨initSt [], some .zeroDivisionError⟩
  else if ciphertext.length % blockSize ≠ 0 then ⟨initSt [], some .assertionError⟩
  else
    let cblocks := chunkBlocks ciphertext blockSize
    let blockCount := cblocks.length
    let st0 := initSt cblocks
    match blockLoop oracle cblocks (blockCount - 1) blockSize
        (List.range' 1 (blockCount - 1)) st0 with
    | (st, some e) => ⟨st, some e⟩
    | (st, none) =>
      match st.varN, st.varI, st.varG, st.varK with
      | some n, some i, some g, some k =>
          ⟨publishSnap st true (blockCount - 1) blockSize n i g k cblocks, none⟩
      | _, _, _, _ => ⟨st, some .nameError⟩

/-- Observable result of one solve_message call.  The source has no return
statement and its `except Exception` swallows every internal error (after
printing it), so the Python return value is always None and nothing
propagates; the finally clause closes the queue. -/
structure RunResult where
  retVal : Option (List Block)
  raised : Option SolveErr
  caught : Option SolveErr
  finalSt : SolveSt
  trace : List Event

def solve_message (oracle : Block → Block → Bool) (ciphertext : List Nat)
    (blockSize : Nat) : RunResult :=
  let body := solveBody oracle ciphertext blockSize
  { retVal := none
    raised := none
    caught := body.err
    finalSt := body.st
    trace := body.st.trace ++ [.closeCh] }

/-- The try block of the STAGED solve_message, traced exactly.  With
B = 0 the alignment check itself raises ZeroDivisionError.  A misaligned
ciphertext fails the assert.  With fewer than two blocks the loop is
skipped and the final StateSnapshot call raises NameError while
evaluating its block_index_n argument (the loop variable is unbound).
Otherwise the first loop iteration binds block_index_n = 1, the locals
byte_value_g = 0 and pad_length_k = 1, increments state_version, and the
block-start StateSnapshot(...) call raises TypeError: the dataclass in
state_snapshot.py accepts none of the keywords complete, ciphertext,
ciphertext_prime, intermediate, plaintext.  Nothing is probed, published
or committed on any path, so every trace is empty. -/
def solveBodyStaged (oracle : Block → Block → Bool) (ciphertext : List Nat)
    (blockSize : Nat) : BodyOut :=
  if blockSize = 0 then ⟨initSt [], some .zeroDivisionError⟩
  else if ciphertext.length % blockSize ≠ 0 then ⟨initSt [], some .assertionError⟩
  else
    let cblocks := chunkBlocks ciphertext blockSize
    if cblocks.length < 2 then ⟨{ initSt cblocks with version := 1 }, some .nameError⟩
    else
      ⟨{ initSt cblocks with
          version := 1
          varN := some 1
          varG := some 0
          varK := some 1 }, some .typeError⟩

/-- The staged solve_message: the except clause swallows the error (after
printing it), there is no return statement, and finally closes the queue. -/
def solve_messageStaged (oracle : Block → Block → Bool) (ciphertext : List Nat)
    (blockSize : Nat) : RunResult :=
  let body := solveBodyStaged oracle ciphertext blockSize
  { retVal := none
    raised := none
    caught := body.err
    finalSt := body.st
    trace := body.st.trace ++ [.closeCh] }

/-! Reference oracles and concrete runs used to instantiate the theorems. -/

/-- PKCS#7 validity of a B-byte plaintext block. -/
def pkcs7Valid (B : Nat) (p : List Nat) : Bool :=
  let k := p.getLast?.getD 0
  decide (1 ≤ k) && decide (k ≤ B) &&
    ((List.range k).all (fun t => p.getD (B - 1 - t) 0 == k))

/-- Reference padding oracle determined by a fixed intermediate block I and
a fixed target block: true iff the target matches and prev XOR I decrypts
to valid PKCS#7 (the demo validate endpoint restricted to one target). -/
def mkOracle (B : Nat) (I c1 : List Nat) : Block → Block → Bool :=
  fun prev tgt =>
    (tgt == c1) && pkcs7Valid B (List.zipWith (fun a b => a ^^^ b) prev I)

/-- Two-block run (IV then one target block), block size 2, honest oracle. -/
def mainCt : List Nat := [5, 7, 9, 11]

def mainOracle : Block → Block → Bool := mkOracle 2 [2, 1] [9, 11]

def mainBlocks : List Block := [[5, 7], [9, 11]]

def mainRun : RunResult := solve_message mainOracle mainCt 2

/-- Failing input for claim C2: the previous-block byte at the k = 1
target position is 2, and under the hypothetical repaired semantics the
k = 1 hit would be at guess 5; in the staged source the run aborts at the
block-start snapshot before any probe. -/
def skipCt : List Nat := [5, 2, 9, 11]

def skipOracle : Block → Block → Bool := mkOracle 2 [3, 4] [9, 11]

/-- An oracle that rejects everything (scenario E). -/
def falseOracle : Block → Block → Bool := fun _ _ => false

/-! Decidable trace observers. -/

def Event.isCloseB : Event → Bool
  | .closeCh => true
  | _ => false

/-- Matches a brute-force probe for the given block and width. -/
def Event.isProbeNK : Event → Nat → Nat → Bool
  | .probe n k _ _ _ _, n0, k0 => n == n0 && k == k0
  | _, _, _ => false

/-- Matches any snapshot publish. -/
def Event.isPublishB : Event → Bool
  | .publish _ _ _ => true
  | _ => false

/-- Discipline of every event the try-block body can emit: never a close,
and every published snapshot copies ciphertext and ciphertext_prime while
passing intermediate and plaintext as live references. -/
def bodyEventOk : Event → Bool
  | .publish s _ _ =>
      s.ciphertext.isCopy && s.ciphertextPrime.isCopy &&
      s.intermediateFld.isRef && s.plaintextFld.isRef
  | .closeCh => false
  | _ => true

/-- The XOR round-trip invariant: every solved plaintext byte equals the
corresponding original previous-ciphertext byte XOR the intermediate byte. -/
def XorInv (C : List Block) (st : SolveSt) : Prop :=
  ∀ n i v, st.interm n i = some v →
    st.plain n i = some (((C.getD (n - 1) []).getD i 0) ^^^ v)

/-- Pre-tail-rewrite state for width k = 2 of the two-block run (the state
right after the k = 1 byte of block 1 was committed). -/
def c4WitSt : SolveSt :=
  { primes := [[5, 0], [9, 11]], interm := Store.empty.set2 1 1 1,
    plain := Store.empty.set2 1 1 6, version := 2, varN := some 1,
    varI := some 1, varG := some 0, varK := some 1, trace := [] }

/-! The single-slot channel (state_queue.py).  Every operation of the
source runs under the condition-variable lock, so the monitor is modelled
by its sequential semantics: a state plus atomic operations.  The Boolean
passed to get is the value wait_for returned (false only on timeout; the
real wait_for can return true only when a value is present or the channel
is closed). -/

structure QState (T : Type) where
  hasValue : Bool
  value : Option T
  closed : Bool

def qInit (T : Type) : QState T := ⟨false, none, false⟩

def QState.publish {T : Type} (q : QState T) (v : T) : QState T :=
  { q with value := some v, hasValue := true }

def QState.close {T : Type} (q : QState T) : QState T :=
  { q with closed := true }

/-- Result of get: a TimeoutError, the closed sentinel (None), or a value. -/
inductive GetResult (T : Type) where
  | timeoutErr
  | closedSentinel
  | value (v : T)
deriving DecidableEq

def QState.get {T : Type} (q : QState T) (ok : Bool) : GetResult T × QState T :=
  if ok = false then (.timeoutErr, q)
  else if q.closed = true ∧ q.hasValue = false then (.closedSentinel, q)
  else
    match q.value with
    | some v => (.value v, { q with value := none, hasValue := false })
    | none => (.closedSentinel, { q with value := none, hasValue := false })

inductive QOp (T : Type) where
  | publish (v : T)
  | close
  | get (ok : Bool)

def applyOp {T : Type} (q : QState T) : QOp T → QState T
  | .publish v => q.publish v
  | .close => q.close
  | .get ok => (q.get ok).2

def applyOps {T : Type} (q : QState T) (ops : List (QOp T)) : QState T :=
  ops.foldl applyOp q

/-! Helper lemmas. -/

theorem getD_set_self {α : Type} (l : List α) (i : Nat) (v d : α)
    (h : i < l.length) : (l.set i v).getD i d = v := by
  simp [List.getD_eq_getElem?_getD, List.getElem?_set_eq h]

theorem getD_set_ne {α : Type} (l : List α) (i j : Nat) (v d : α)
    (h : i ≠ j) : (l.set i v).getD j d = l.getD j d := by
  simp [List.getD_eq_getElem?_getD, List.getElem?_set_ne h]

theorem setPrimeByte_getD_other (ps : List Block) (b i v a : Nat) (h : a ≠ b) :
    (setPrimeByte ps b i v).getD a [] = ps.getD a [] := by
  unfold setPrimeByte
  exact getD_set_ne _ _ _ _ _ (Ne.symm h)

theorem setPrimeByte_getD_byte_ne (ps : List Block) (b i v j : Nat) (h : i ≠ j) :
    ((setPrimeByte ps b i v).getD b []).getD j 0 = (ps.getD b []).getD j 0 := by
  unfold setPrimeByte
  by_cases hb : b < ps.length
  · rw [getD_set_self _ _ _ _ hb, getD_set_ne _ _ _ _ _ h]
  · rw [List.set_eq_of_length_le (Nat.le_of_not_lt hb)]

theorem setPrimeByte_getD_byte_eq (ps : List Block) (b i v : Nat)
    (hb : b < ps.length) (hi : i < (ps.getD b []).length) :
    ((setPrimeByte ps b i v).getD b []).getD i 0 = v := by
  unfold setPrimeByte
  rw [getD_set_self _ _ _ _ hb, getD_set_self _ _ _ _ hi]

theorem setPrimeByte_length (ps : List Block) (b i v : Nat) :
    (setPrimeByte ps b i v).length = ps.length :=
  List.length_set ps b _

theorem setPrimeByte_block_length (ps : List Block) (b i v : Nat) :
    ((setPrimeByte ps b i v).getD b []).length = (ps.getD b []).length := by
  unfold setPrimeByte
  by_cases hb : b < ps.length
  · rw [getD_set_self _ _ _ _ hb, List.length_set]
  · rw [List.set_eq_of_length_le (Nat.le_of_not_lt hb)]

theorem store_set2_self (s : Store) (n i v : Nat) : (s.set2 n i v) n i = some v := by
  simp [Store.set2]

theorem store_set2_other (s : Store) (n i v a b : Nat) (h : ¬(a = n ∧ b = i)) :
    (s.set2 n i v) a b = s a b := by
  simp [Store.set2, h]

/-! Queue lemmas. -/

theorem qPublishes_value {T : Type} (vs : List T) (v : T) :
    ∀ q : QState T,
      (applyOps q (List.map QOp.publish (vs ++ [v]))).value = some v ∧
      (applyOps q (List.map QOp.publish (vs ++ [v]))).hasValue = true := by
  induction vs with
  | nil => intro q; exact ⟨rfl, rfl⟩
  | cons w ws ih => intro q; exact ih (q.publish w)

theorem qGet_value {T : Type} (q : QState T) (v : T) (hv : q.value = some v)
    (hb : q.hasValue = true) :
    q.get true = (.value v, { q with value := none, hasValue := false }) := by
  simp [QState.get, hv, hb]

theorem qInv_reach {T : Type} (ops : List (QOp T)) :
    ∀ q : QState T, q.hasValue = q.value.isSome →
      (applyOps q ops).hasValue = (applyOps q ops).value.isSome := by
  induction ops with
  | nil => intro q hq; exact hq
  | cons op rest ih =>
    intro q hq
    refine ih (applyOp q op) ?_
    cases op with
    | publish v => rfl
    | close => exact hq
    | get ok =>
      show ((q.get ok).2).hasValue = ((q.get ok).2).value.isSome
      rw [QState.get]
      by_cases h1 : ok = false
      · rw [if_pos h1]; exact hq
      · rw [if_neg h1]
        by_cases h2 : q.closed = true ∧ q.hasValue = false
        · rw [if_pos h2]; exact hq
        · rw [if_neg h2]
          cases hv : q.value with
          | none => rfl
          | some w => rfl

/-- Claim C7: the single-slot channel get contract.  Every operation of the
source holds the condition lock, so the monitor is modelled sequentially;
the Boolean passed to get is the outcome of wait_for (false only on
timeout).  The conjuncts: a get after any publish burst returns the last
published value; on closed-and-empty it returns the closed sentinel; on a
value it returns it and atomically clears the slot; a timeout is an error
distinct from the closed sentinel; and a publish followed by close is
still delivered by the next get, not masked by closure. -/
theorem claim_C7 (T : Type) :
    (∀ (q : QState T) (vs : List T) (v : T),
      ((applyOps q (List.map QOp.publish (vs ++ [v]))).get true).1 = .value v) ∧
    (∀ q : QState T, q.closed = true → q.hasValue = false →
      (q.get true).1 = .closedSentinel) ∧
    (∀ (q : QState T) (v : T), q.value = some v → q.hasValue = true →
      q.get true = (.value v, { q with value := none, hasValue := false })) ∧
    (∀ q : QState T, (q.get false).1 = .timeoutErr) ∧
    ((.timeoutErr : GetResult T) ≠ .closedSentinel) ∧
    (∀ (q : QState T) (v : T), (((q.publish v).close).get true).1 = .value v) := by
  refine ⟨?_, ?_, ?_, ?_, ?_, ?_⟩
  · intro q vs v
    obtain ⟨hv, hb⟩ := qPublishes_value vs v q
    rw [qGet_value _ _ hv hb]
  · intro q hc hb
    simp [QState.get, hc, hb]
  · intro q v hv hb
    exact qGet_value q v hv hb
  · intro q
    simp [QState.get]
  · intro h
    exact GetResult.noConfusion h
  · intro q v
    rw [qGet_value ((q.publish v).close) v rfl rfl]

/-- Claim C7 witness: the contract instantiated on a concrete channel of
naturals: publish 3 then publish 5, get returns 5; a closed empty channel
returns the sentinel; publish 7 then close still delivers 7. -/
theorem claim_C7_witness :
    ((applyOps (qInit Nat) (List.map QOp.publish ([3] ++ [5]))).get true).1 = .value 5 ∧
    (((qInit Nat).close).get true).1 = .closedSentinel ∧
    ((((qInit Nat).publish 7).close).get true).1 = .value 7 ∧
    (((qInit Nat).get false).1 = .timeoutErr) := by
  refine ⟨(claim_C7 Nat).1 (qInit Nat) [3] 5, ?_, ?_, ?_⟩
  · exact (claim_C7 Nat).2.1 ((qInit Nat).close) rfl rfl
  · exact (claim_C7 Nat).2.2.2.2.2 (qInit Nat) 7
  · exact (claim_C7 Nat).2.2.2.1 (qInit Nat)

/-- Claim C10: closing does not disable publishing.  A publish after close
succeeds (the slot becomes occupied) and the next get returns the value,
not the closed sentinel; and on any reachable channel state the sentinel
is only ever returned when the channel is closed and the slot is empty
(given wait_for's contract that a true outcome implies a value is present
or the channel is closed). -/
theorem claim_C10 (T : Type) :
    (∀ (q : QState T) (v : T),
      ((q.close).publish v).hasValue = true ∧
      (((q.close).publish v).get true).1 = .value v) ∧
    (∀ (ops : List (QOp T)) (ok : Bool),
      ((applyOps (qInit T) ops).get ok).1 = .closedSentinel →
      (ok = true → (applyOps (qInit T) ops).hasValue = true ∨
        (applyOps (qInit T) ops).closed = true) →
      (applyOps (qInit T) ops).closed = true ∧
      (applyOps (qInit T) ops).hasValue = false) := by
  constructor
  · intro q v
    exact ⟨rfl, by simp [QState.get, QState.publish, QState.close]⟩
  · intro ops ok hs hpred
    have hinv : (applyOps (qInit T) ops).hasValue =
        (applyOps (qInit T) ops).value.isSome :=
      qInv_reach ops (qInit T) rfl
    set q := applyOps (qInit T) ops with hq
    by_cases h1 : ok = false
    · rw [h1] at hs
      simp [QState.get] at hs
    · rw [QState.get, if_neg h1] at hs
      by_cases h2 : q.closed = true ∧ q.hasValue = false
      · exact h2
      · rw [if_neg h2] at hs
        cases hv : q.value with
        | some w => rw [hv] at hs; simp at hs
        | none =>
          exfalso
          have hb : q.hasValue = false := by
            rw [hinv, hv]; rfl
          have := hpred (by revert h1; cases ok <;> simp)
          rcases this with h | h
          · rw [hb] at h; exact Bool.noConfusion h
          · exact h2 ⟨h, hb⟩

/-- Claim C10 witness: close then publish 9 on the concrete empty channel:
the slot is occupied and get returns 9; and the sentinel case of the
reachable-state conjunct at the trace [close]. -/
theorem claim_C10_witness :
    (((qInit Nat).close).publish 9).hasValue = true ∧
    ((((qInit Nat).close).publish 9).get true).1 = .value 9 ∧
    (applyOps (qInit Nat) [QOp.close]).closed = true ∧
    (applyOps (qInit Nat) [QOp.close]).hasValue = false := by
  refine ⟨((claim_C10 Nat).1 (qInit Nat) 9).1, ((claim_C10 Nat).1 (qInit Nat) 9).2, ?_⟩
  have h := (claim_C10 Nat).2 [QOp.close] true (by decide) (fun _ => Or.inr (by decide))
  exact ⟨h.1, h.2⟩

/-- Trace of the staged solve_message on every input: the body raises on
every path before any probe or publish (ZeroDivisionError, AssertionError,
NameError or TypeError), the error is caught, and the finally clause
closes the queue, so the whole event trace is the single channel close. -/
theorem stagedTrace_eq (oracle : Block → Block → Bool) (ct : List Nat) (B : Nat) :
    (solve_messageStaged oracle ct B).trace = [.closeCh] := by
  unfold solve_messageStaged solveBodyStaged
  dsimp only
  split
  · rfl
  · split
    · rfl
    · split
      · rfl
      · rfl

/-- Claim C2: the code_bug evaluation at the failing input.  The claim says
that at k = 1 exactly one guess, the one equal to the loop-start value of
the working previous-block byte (here 2, the original byte of [5, 2]), is
skipped while every other guess may be probed.  In the staged source the
run never reaches the brute-force loop: the block-start StateSnapshot call
raises TypeError (the dataclass accepts none of the passed keywords), the
error is caught and the queue closed, so no guess is ever skipped or
submitted at all — the trace holds no k = 1 probe and no event but the
close. -/
theorem claim_C2 :
    (solve_messageStaged skipOracle skipCt 2).caught = some .typeError ∧
    (solve_messageStaged skipOracle skipCt 2).trace = [.closeCh] ∧
    (solve_messageStaged skipOracle skipCt 2).trace.countP
      (fun e => e.isProbeNK 1 1) = 0 :=
  ⟨rfl, rfl, rfl⟩

/-- Claim C5 counterexample: on a well-formed two-block ciphertext with an
honest oracle — an input on which the claim promises the plaintext
sequence is returned — the staged solve_message catches a TypeError from
the very first snapshot construction, probes nothing, recovers nothing,
raises nothing to its caller, and returns None. -/
theorem claim_C5_counterexample :
    (solve_messageStaged mainOracle mainCt 2).retVal = none ∧
    (solve_messageStaged mainOracle mainCt 2).raised = none ∧
    (solve_messageStaged mainOracle mainCt 2).caught = some .typeError ∧
    (solve_messageStaged mainOracle mainCt 2).trace = [.closeCh] :=
  ⟨rfl, rfl, rfl, rfl⟩

/-- Claim C5 amended: solve_message always returns None and never lets any
exception escape.  Internally: B = 0 hits ZeroDivisionError in the
alignment check; a misaligned ciphertext fails the assert; N < 2 hits
NameError evaluating the final snapshot's arguments; and every
block-aligned input with at least two blocks hits TypeError at the
block-start StateSnapshot call, before any oracle probe — so the
RuntimeError for guess exhaustion is unreachable and no plaintext is ever
recovered.  All errors are caught and printed; the channel is closed in
every case. -/
theorem claim_C5_amended :
    (∀ (oracle : Block → Block → Bool) (ct : List Nat) (B : Nat),
      (solve_messageStaged oracle ct B).retVal = none ∧
      (solve_messageStaged oracle ct B).raised = none) ∧
    (∀ (oracle : Block → Block → Bool) (ct : List Nat) (B : Nat),
      B ≠ 0 → ct.length % B ≠ 0 →
      (solve_messageStaged oracle ct B).caught = some .assertionError) ∧
    (∀ (oracle : Block → Block → Bool) (ct : List Nat) (B : Nat),
      B ≠ 0 → ct.length % B = 0 → 2 ≤ (chunkBlocks ct B).length →
      (solve_messageStaged oracle ct B).caught = some .typeError ∧
      (solve_messageStaged oracle ct B).trace = [.closeCh]) ∧
    ((solve_messageStaged mainOracle [1, 2] 2).caught = some .nameError) ∧
    ((solve_messageStaged mainOracle [] 0).caught = some .zeroDivisionError) := by
  refine ⟨fun _ _ _ => ⟨rfl, rfl⟩, ?_, ?_, rfl, rfl⟩
  · intro oracle ct B h1 h2
    simp [solve_messageStaged, solveBodyStaged, h1, h2]
  · intro oracle ct B h0 hal hN
    unfold solve_messageStaged solveBodyStaged
    dsimp only
    rw [if_neg h0, if_neg (fun hc => hc hal), if_neg (by omega)]
    exact ⟨rfl, rfl⟩

/-- Claim C5 amended witness: the assert conjunct at a concrete misaligned
one-byte ciphertext, the TypeError conjunct at the concrete two-block
input, and the return-value conjunct at the same input. -/
theorem claim_C5_witness :
    (solve_messageStaged falseOracle [0] 2).caught = some .assertionError ∧
    (solve_messageStaged falseOracle mainCt 2).caught = some .typeError ∧
    (solve_messageStaged mainOracle mainCt 2).retVal = none := by
  exact ⟨claim_C5_amended.2.1 falseOracle [0] 2 (by decide) (by decide),
    (claim_C5_amended.2.2.1 falseOracle mainCt 2 (by decide) (by decide) (by decide)).1,
    (claim_C5_amended.1 mainOracle mainCt 2).1⟩

/-- Claim C6: every published snapshot never aliases solver-mutable
storage — vacuously true of the staged source, which never publishes a
snapshot: each StateSnapshot construction raises before state_queue's
publish is reached.  The first conjunct proves the publish count of every
run is zero; the second states the claim itself, a universal over the
(nonexistent) published snapshots: all four block-list fields read the
same against any later solver storage. -/
theorem claim_C6 :
    (∀ (oracle : Block → Block → Bool) (ct : List Nat) (B : Nat),
      (solve_messageStaged oracle ct B).trace.countP Event.isPublishB = 0) ∧
    (∀ (oracle : Block → Block → Bool) (ct : List Nat) (B : Nat) (s : Snap)
        (li lp : Store),
      Event.publish s li lp ∈ (solve_messageStaged oracle ct B).trace →
      (∀ live live' : List Block, s.ciphertext.read live = s.ciphertext.read live') ∧
      (∀ live live' : List Block,
        s.ciphertextPrime.read live = s.ciphertextPrime.read live') ∧
      (∀ live live' : Store,
        s.intermediateFld.read live = s.intermediateFld.read live') ∧
      (∀ live live' : Store, s.plaintextFld.read live = s.plaintextFld.read live')) := by
  constructor
  · intro oracle ct B
    rw [stagedTrace_eq]
    rfl
  · intro oracle ct B s li lp hmem
    rw [stagedTrace_eq] at hmem
    exact absurd (List.mem_singleton.mp hmem) (fun hx => Event.noConfusion hx)

/-- Claim C6 witness: the publish-count conjunct applied at the concrete
two-block input (the run publishes nothing, so nothing can alias). -/
theorem claim_C6_witness :
    (solve_messageStaged mainOracle mainCt 2).trace.countP Event.isPublishB = 0 :=
  claim_C6.1 mainOracle mainCt 2

/-- Claim C9 counterexample: on a well-formed two-block input the run ends
(the channel is closed) with zero snapshots published — in particular no
snapshot with complete = true is published at the end of the run, and no
Guess or ByteDone snapshot exists, refuting the claimed publish cadence. -/
theorem claim_C9_counterexample :
    (solve_messageStaged mainOracle mainCt 2).trace.countP Event.isPublishB = 0 ∧
    (solve_messageStaged mainOracle mainCt 2).trace.getLast? = some .closeCh ∧
    (solve_messageStaged mainOracle mainCt 2).caught = some .typeError :=
  ⟨rfl, rfl, rfl⟩

/-- Claim C9 amended: no snapshot is ever published on any run of the
staged solve_message.  Every StateSnapshot construction raises before
state_queue.publish is reached — TypeError at the block-start snapshot
when there are at least two blocks, NameError in the final snapshot's
argument evaluation otherwise — so there are no Guess, ByteDone or
complete = true snapshots; the entire event trace of every run is the
single channel close. -/
theorem claim_C9_amended (oracle : Block → Block → Bool) (ct : List Nat) (B : Nat) :
    (solve_messageStaged oracle ct B).trace = [.closeCh] :=
  stagedTrace_eq oracle ct B

theorem publishSnap_allOk (st : SolveSt) (c : Bool) (bc B n i g k : Nat)
    (cb : List Block) (h : st.trace.all bodyEventOk = true) :
    ((publishSnap st c bc B n i g k cb).trace).all bodyEventOk = true := by
  simp only [publishSnap, List.all_append, h, Bool.true_and, List.all_cons, List.all_nil,
    Bool.and_true]
  rfl

theorem bruteStep_allOk (oracle : Block → Block → Bool) (cblocks : List Block)
    (bc B n k g : Nat) (target : Block) (st : SolveSt)
    (h : st.trace.all bodyEventOk = true) :
    (((bruteStep oracle cblocks bc B n k g target st).st).trace).all bodyEventOk = true := by
  unfold bruteStep
  dsimp only
  split
  · exact h
  · split
    · simp only [StepOut.st, SolveSt.emit, publishSnap, List.all_append, h, Bool.true_and,
        List.all_cons, List.all_nil, Bool.and_true]
      rfl
    · split
      · split
        · simp only [StepOut.st, SolveSt.emit, publishSnap, List.all_append, h, Bool.true_and,
            List.all_cons, List.all_nil, Bool.and_true]
          rfl
        · simp only [StepOut.st, SolveSt.emit, publishSnap, List.all_append, h, Bool.true_and,
            List.all_cons, List.all_nil, Bool.and_true]
          rfl
      · split
        · simp only [StepOut.st, SolveSt.emit, publishSnap, List.all_append, h, Bool.true_and,
            List.all_cons, List.all_nil, Bool.and_true]
          rfl
        · simp only [StepOut.st, SolveSt.emit, publishSnap, List.all_append, h, Bool.true_and,
            List.all_cons, List.all_nil, Bool.and_true]
          rfl

theorem bruteLoop_allOk (oracle : Block → Block → Bool) (cblocks : List Block)
    (bc B n k : Nat) (target : Block) (gs : List Nat) :
    ∀ st : SolveSt, st.trace.all bodyEventOk = true →
    (((bruteLoop oracle cblocks bc B n k target gs st).2).trace).all bodyEventOk = true := by
  induction gs with
  | nil => intro st h; exact h
  | cons g rest ih =>
    intro st h
    have hs := bruteStep_allOk oracle cblocks bc B n k g target st h
    unfold bruteLoop
    cases hb : bruteStep oracle cblocks bc B n k g target st with
    | committed st' => rw [hb] at hs; exact hs
    | skipped st' => rw [hb] at hs; exact ih st' hs
    | miss st' => rw [hb] at hs; exact ih st' hs
    | rejected st' => rw [hb] at hs; exact ih st' hs

theorem tailWriteOne_trace (n k j : Nat) (st : SolveSt) :
    (tailWriteOne n k j st).trace = st.trace := by
  unfold tailWriteOne
  cases st.interm n j <;> rfl

theorem tailWriteOne_interm (n k j : Nat) (st : SolveSt) :
    (tailWriteOne n k j st).interm = st.interm := by
  unfold tailWriteOne
  cases st.interm n j <;> rfl

theorem tailWriteOne_plain (n k j : Nat) (st : SolveSt) :
    (tailWriteOne n k j st).plain = st.plain := by
  unfold tailWriteOne
  cases st.interm n j <;> rfl

theorem tailRewrite_trace (n k : Nat) (js : List Nat) :
    ∀ st : SolveSt, (tailRewrite n k js st).trace = st.trace := by
  induction js with
  | nil => intro st; rfl
  | cons j rest ih =>
    intro st
    unfold tailRewrite
    rw [ih, tailWriteOne_trace]

theorem tailRewrite_interm (n k : Nat) (js : List Nat) :
    ∀ st : SolveSt, (tailRewrite n k js st).interm = st.interm := by
  induction js with
  | nil => intro st; rfl
  | cons j rest ih =>
    intro st
    unfold tailRewrite
    rw [ih, tailWriteOne_interm]

theorem tailRewrite_plain (n k : Nat) (js : List Nat) :
    ∀ st : SolveSt, (tailRewrite n k js st).plain = st.plain := by
  induction js with
  | nil => intro st; rfl
  | cons j rest ih =>
    intro st
    unfold tailRewrite
    rw [ih, tailWriteOne_plain]

theorem kLoop_allOk (oracle : Block → Block → Bool) (cblocks : List Block)
    (bc B n : Nat) (target : Block) (ks : List Nat) :
    ∀ st : SolveSt, st.trace.all bodyEventOk = true →
    (((kLoop oracle cblocks bc B n target ks st).1).trace).all bodyEventOk = true := by
  induction ks with
  | nil => intro st h; exact h
  | cons k rest ih =>
    intro st h
    unfold kLoop
    dsimp only
    have h2 : ((tailRewrite n k (List.range' (B - (k - 1)) (k - 1))
        { st with varK := some k }).trace).all bodyEventOk = true := by
      rw [tailRewrite_trace]; exact h
    set st2 := { tailRewrite n k (List.range' (B - (k - 1)) (k - 1))
        { st with varK := some k } with varI := some (B - k) } with hst2
    have h3 : st2.trace.all bodyEventOk = true := h2
    have hb := bruteLoop_allOk oracle cblocks bc B n k target (List.range 256) st2 h3
    cases hbl : bruteLoop oracle cblocks bc B n k target (List.range 256) st2 with
    | mk found st' =>
      rw [hbl] at hb
      cases found
      · exact hb
      · exact ih st' hb

theorem blockLoop_allOk (oracle : Block → Block → Bool) (cblocks : List Block)
    (bc B : Nat) (ns : List Nat) :
    ∀ st : SolveSt, st.trace.all bodyEventOk = true →
    (((blockLoop oracle cblocks bc B ns st).1).trace).all bodyEventOk = true := by
  induction ns with
  | nil => intro st h; exact h
  | cons n rest ih =>
    intro st h
    unfold blockLoop
    dsimp only
    set st1 := (publishSnap { st with varN := some n, varG := some 0, varK := some 1 }
      false bc B n (B - 1) 0 1 cblocks) with hst1
    have h1 : st1.trace.all bodyEventOk = true := by
      rw [hst1]
      exact publishSnap_allOk _ _ _ _ _ _ _ _ _ h
    set st2 := st1.emit (.probeOrig n (st1.primes.getD (n - 1) []) (cblocks.getD n [])
      (oracle (st1.primes.getD (n - 1) []) (cblocks.getD n []))) with hst2
    have h2 : st2.trace.all bodyEventOk = true := by
      rw [hst2]
      simp only [SolveSt.emit, List.all_append, h1, Bool.true_and, List.all_cons,
        List.all_nil, Bool.and_true]
      rfl
    have hk := kLoop_allOk oracle cblocks bc B n (cblocks.getD n [])
      (List.range' 1 B) st2 h2
    cases hkl : kLoop oracle cblocks bc B n (cblocks.getD n []) (List.range' 1 B) st2 with
    | mk st' err =>
      rw [hkl] at hk
      cases err
      · exact ih st' hk
      · exact hk

theorem solveBody_allOk (oracle : Block → Block → Bool) (ct : List Nat) (B : Nat) :
    (((solveBody oracle ct B).st).trace).all bodyEventOk = true := by
  unfold solveBody
  split
  · rfl
  · split
    · rfl
    · dsimp only
      have hb := blockLoop_allOk oracle (chunkBlocks ct B) ((chunkBlocks ct B).length - 1) B
        (List.range' 1 ((chunkBlocks ct B).length - 1)) (initSt (chunkBlocks ct B)) rfl
      cases hbl : blockLoop oracle (chunkBlocks ct B) ((chunkBlocks ct B).length - 1) B
          (List.range' 1 ((chunkBlocks ct B).length - 1)) (initSt (chunkBlocks ct B)) with
      | mk st' err =>
        rw [hbl] at hb
        obtain ⟨ps, itm, pl, ver, vN, vI, vG, vK, tr⟩ := st'
        cases err with
        | some e => exact hb
        | none =>
          cases vN with
          | none => exact hb
          | some n =>
            cases vI with
            | none => exact hb
            | some i =>
              cases vG with
              | none => exact hb
              | some g =>
                cases vK with
                | none => exact hb
                | some k => exact publishSnap_allOk _ _ _ _ _ _ _ _ _ hb

theorem bodyEventOk_not_close (e : Event) (h : bodyEventOk e = true) :
    e.isCloseB = false := by
  cases e with
  | publish s li lp => rfl
  | probeOrig n p t r => rfl
  | probe n k g p t r => rfl
  | probeConfirm n k g p t r => rfl
  | commit n k i g => rfl
  | closeCh => exact absurd h (by decide)

/-- Claim C8: on every exit path of solve_message (success, any caught
internal error, or the degenerate inputs) the trace contains exactly one
channel close, and it is the final operation: the finally clause always
closes the queue and the body never does. -/
theorem claim_C8 (oracle : Block → Block → Bool) (ct : List Nat) (B : Nat) :
    ((solve_message oracle ct B).trace.countP Event.isCloseB = 1) ∧
    ((solve_message oracle ct B).trace.getLast? = some .closeCh) := by
  have hall := solveBody_allOk oracle ct B
  constructor
  · show ((solveBody oracle ct B).st.trace ++ [Event.closeCh]).countP Event.isCloseB = 1
    rw [List.countP_append]
    have h0 : (solveBody oracle ct B).st.trace.countP Event.isCloseB = 0 := by
      rw [List.countP_eq_zero]
      intro a ha hc
      rw [bodyEventOk_not_close a (List.all_eq_true.mp hall a ha)] at hc
      exact Bool.noConfusion hc
    rw [h0]
    rfl
  · show ((solveBody oracle ct B).st.trace ++ [Event.closeCh]).getLast? = some .closeCh
    exact List.getLast?_concat _

theorem xorInv_of_eq (C : List Block) (st st' : SolveSt)
    (h1 : st'.interm = st.interm) (h2 : st'.plain = st.plain)
    (h : XorInv C st) : XorInv C st' := by
  intro n i v hv
  rw [h1] at hv
  rw [h2]
  exact h n i v hv

theorem xorInv_commit (C : List Block) (st : SolveSt) (n i g k : Nat)
    (h : XorInv C st) :
    XorInv C { st with
      interm := st.interm.set2 n i (g ^^^ k)
      plain := st.plain.set2 n i (((C.getD (n - 1) []).getD i 0) ^^^ (g ^^^ k)) } := by
  intro a b v hv
  show (st.plain.set2 n i (((C.getD (n - 1) []).getD i 0) ^^^ (g ^^^ k))) a b = _
  have hv2 : (st.interm.set2 n i (g ^^^ k)) a b = some v := hv
  by_cases hab : a = n ∧ b = i
  · rw [hab.1, hab.2] at hv2 ⊢
    rw [store_set2_self] at hv2
    rw [store_set2_self]
    injection hv2 with hveq
    rw [← hveq]
  · rw [store_set2_other _ _ _ _ _ _ hab] at hv2
    rw [store_set2_other _ _ _ _ _ _ hab]
    exact h a b v hv2

theorem bruteStep_commit_values (oracle : Block → Block → Bool) (cblocks : List Block)
    (bc B n k g : Nat) (target : Block) (st st' : SolveSt)
    (h : bruteStep oracle cblocks bc B n k g target st = .committed st') :
    st'.interm n (B - k) = some (g ^^^ k) ∧
    st'.plain n (B - k) =
      some (((cblocks.getD (n - 1) []).getD (B - k) 0) ^^^ (g ^^^ k)) := by
  unfold bruteStep at h
  dsimp only at h
  split at h
  · exact StepOut.noConfusion h
  · split at h
    · exact StepOut.noConfusion h
    · split at h
      · split at h
        · have hst := (StepOut.committed.injEq _ _).mp h
          rw [← hst]
          exact ⟨store_set2_self _ _ _ _, store_set2_self _ _ _ _⟩
        · have hst := (StepOut.committed.injEq _ _).mp h
          rw [← hst]
          exact ⟨store_set2_self _ _ _ _, store_set2_self _ _ _ _⟩
      · exact StepOut.noConfusion h

theorem bruteStep_xorInv (oracle : Block → Block → Bool) (cblocks : List Block)
    (bc B n k g : Nat) (target : Block) (st : SolveSt)
    (h : XorInv cblocks st) :
    XorInv cblocks ((bruteStep oracle cblocks bc B n k g target st).st) := by
  unfold bruteStep
  dsimp only
  split
  · exact h
  · split
    · exact h
    · split
      · split
        · exact xorInv_commit cblocks st n (B - k) g k h
        · exact xorInv_commit cblocks st n (B - k) g k h
      · split
        · exact h
        · exact h

theorem bruteLoop_xorInv (oracle : Block → Block → Bool) (cblocks : List Block)
    (bc B n k : Nat) (target : Block) (gs : List Nat) :
    ∀ st : SolveSt, XorInv cblocks st →
    XorInv cblocks ((bruteLoop oracle cblocks bc B n k target gs st).2) := by
  induction gs with
  | nil => intro st h; exact h
  | cons g rest ih =>
    intro st h
    have hs := bruteStep_xorInv oracle cblocks bc B n k g target st h
    unfold bruteLoop
    cases hb : bruteStep oracle cblocks bc B n k g target st with
    | committed st' => rw [hb] at hs; exact hs
    | skipped st' => rw [hb] at hs; exact ih st' hs
    | miss st' => rw [hb] at hs; exact ih st' hs
    | rejected st' => rw [hb] at hs; exact ih st' hs

theorem kLoop_xorInv (oracle : Block → Block → Bool) (cblocks : List Block)
    (bc B n : Nat) (target : Block) (ks : List Nat) :
    ∀ st : SolveSt, XorInv cblocks st →
    XorInv cblocks ((kLoop oracle cblocks bc B n target ks st).1) := by
  induction ks with
  | nil => intro st h; exact h
  | cons k rest ih =>
    intro st h
    unfold kLoop
    dsimp only
    set st2 := { tailRewrite n k (List.range' (B - (k - 1)) (k - 1))
        { st with varK := some k } with varI := some (B - k) } with hst2
    have h2 : XorInv cblocks st2 := by
      refine xorInv_of_eq cblocks st st2 ?_ ?_ h
      · rw [hst2]
        show (tailRewrite n k (List.range' (B - (k - 1)) (k - 1))
          { st with varK := some k }).interm = st.interm
        rw [tailRewrite_interm]
      · rw [hst2]
        show (tailRewrite n k (List.range' (B - (k - 1)) (k - 1))
          { st with varK := some k }).plain = st.plain
        rw [tailRewrite_plain]
    have hb := bruteLoop_xorInv oracle cblocks bc B n k target (List.range 256) st2 h2
    cases hbl : bruteLoop oracle cblocks bc B n k target (List.range 256) st2 with
    | mk found st' =>
      rw [hbl] at hb
      cases found
      · exact hb
      · exact ih st' hb

theorem blockLoop_xorInv (oracle : Block → Block → Bool) (cblocks : List Block)
    (bc B : Nat) (ns : List Nat) :
    ∀ st : SolveSt, XorInv cblocks st →
    XorInv cblocks ((blockLoop oracle cblocks bc B ns st).1) := by
  induction ns with
  | nil => intro st h; exact h
  | cons n rest ih =>
    intro st h
    unfold blockLoop
    dsimp only
    set st1 := (publishSnap { st with varN := some n, varG := some 0, varK := some 1 }
      false bc B n (B - 1) 0 1 cblocks) with hst1
    set st2 := st1.emit (.probeOrig n (st1.primes.getD (n - 1) []) (cblocks.getD n [])
      (oracle (st1.primes.getD (n - 1) []) (cblocks.getD n []))) with hst2
    have h2 : XorInv cblocks st2 := h
    have hk := kLoop_xorInv oracle cblocks bc B n (cblocks.getD n [])
      (List.range' 1 B) st2 h2
    cases hkl : kLoop oracle cblocks bc B n (cblocks.getD n []) (List.range' 1 B) st2 with
    | mk st' err =>
      rw [hkl] at hk
      cases err
      · exact ih st' hk
      · exact hk

theorem solveBody_xorInv (oracle : Block → Block → Bool) (ct : List Nat) (B : Nat) :
    XorInv (chunkBlocks ct B) ((solveBody oracle ct B).st) := by
  unfold solveBody
  split
  · intro a b v hv; exact Option.noConfusion hv
  · split
    · intro a b v hv; exact Option.noConfusion hv
    · dsimp only
      have hb := blockLoop_xorInv oracle (chunkBlocks ct B) ((chunkBlocks ct B).length - 1)
        B (List.range' 1 ((chunkBlocks ct B).length - 1)) (initSt (chunkBlocks ct B))
        (fun a b v hv => Option.noConfusion hv)
      cases hbl : blockLoop oracle (chunkBlocks ct B) ((chunkBlocks ct B).length - 1) B
          (List.range' 1 ((chunkBlocks ct B).length - 1)) (initSt (chunkBlocks ct B)) with
      | mk st' err =>
        rw [hbl] at hb
        obtain ⟨ps, itm, pl, ver, vN, vI, vG, vK, tr⟩ := st'
        cases err with
        | some e => exact hb
        | none =>
          cases vN with
          | none => exact hb
          | some n =>
            cases vI with
            | none => exact hb
            | some i =>
              cases vG with
              | none => exact hb
              | some g =>
                cases vK with
                | none => exact hb
                | some k => exact hb

/-- Claim C1: on every confirmed guess the solver records the intermediate
byte as g XOR k and the plaintext byte as the XOR of the ORIGINAL previous
ciphertext block byte (cblocks, never mutated) with that intermediate byte;
and globally, in every run, every solved plaintext byte equals the original
previous-block byte XOR the recorded intermediate byte. -/
theorem claim_C1 :
    (∀ (oracle : Block → Block → Bool) (cblocks : List Block) (bc B n k g : Nat)
        (target : Block) (st st' : SolveSt),
      bruteStep oracle cblocks bc B n k g target st = .committed st' →
      st'.interm n (B - k) = some (g ^^^ k) ∧
      st'.plain n (B - k) =
        some (((cblocks.getD (n - 1) []).getD (B - k) 0) ^^^ (g ^^^ k))) ∧
    (∀ (oracle : Block → Block → Bool) (ct : List Nat) (B : Nat),
      XorInv (chunkBlocks ct B) ((solveBody oracle ct B).st)) :=
  ⟨fun oracle cblocks bc B n k g target st st' h =>
    bruteStep_commit_values oracle cblocks bc B n k g target st st' h,
   fun oracle ct B => solveBody_xorInv oracle ct B⟩

/-- Claim C1 witness: the commit conjunct applied to the first confirmed
guess of the main run (records I = 0 XOR 1 = 1, P = 7 XOR 1 = 6), and the
global conjunct applied at byte (1, 0) of the finished main run, where the
plaintext byte 7 = 5 XOR 2 uses the original previous byte 5 although the
mutated scratch block ends the run as [0, 3]. -/
theorem claim_C1_witness :
    (bruteStep mainOracle mainBlocks 1 2 1 1 0 [9, 11] (initSt mainBlocks)).st.interm 1 1 =
      some 1 ∧
    (bruteStep mainOracle mainBlocks 1 2 1 1 0 [9, 11] (initSt mainBlocks)).st.plain 1 1 =
      some 6 ∧
    mainRun.finalSt.plain 1 0 = some 7 ∧
    mainRun.finalSt.primes.getD 0 [] = [0, 3] := by
  have h := claim_C1.1 mainOracle mainBlocks 1 2 1 1 0 [9, 11] (initSt mainBlocks)
    ((bruteStep mainOracle mainBlocks 1 2 1 1 0 [9, 11] (initSt mainBlocks)).st) rfl
  have h2 := claim_C1.2 mainOracle mainCt 2
  have hi : (solveBody mainOracle mainCt 2).st.interm 1 0 = some 2 := by decide
  have h3 := h2 1 0 2 hi
  have h4 : ((chunkBlocks mainCt 2).getD 0 []).getD 0 0 ^^^ 2 = 7 := by decide
  refine ⟨?_, ?_, ?_, by decide⟩
  · have := h.1
    simpa using this
  · have := h.2
    have h5 : ((mainBlocks.getD 0 []).getD 1 0) ^^^ (0 ^^^ 1) = 6 := by decide
    rw [show (2 : Nat) - 1 = 1 from rfl] at this
    rw [this, h5]
  · rw [show mainRun.finalSt.plain 1 0 = (solveBody mainOracle mainCt 2).st.plain 1 0
      from rfl, h3, h4]

/-- Claim C3: the confirmation probe.  When the pad width reaches the whole
block (f = B - k - 1 < 0, i.e. k = target length) the hit is accepted
unconditionally with no second probe; when f is at least 0 the probe sent
is the primary probe with only byte f changed, by XOR 1, and the result is
exactly the oracle's answer; and in the solver, after a primary hit the
guess is committed iff that confirmation probe of the same working block
returns true. -/
theorem claim_C3 :
    (∀ (oracle : Block → Block → Bool) (prime target : Block) (k : Nat),
      target.length ≤ k → confirmHit oracle prime target k = (true, -1, none)) ∧
    (∀ (oracle : Block → Block → Bool) (prime target : Block) (k : Nat),
      k < target.length →
      ∃ c2, confirmHit oracle prime target k =
          (oracle c2 target, ((target.length : Int) - k - 1), some c2) ∧
        c2 = prime.set (target.length - k - 1)
          ((prime.getD (target.length - k - 1) 0) ^^^ 1) ∧
        c2.length = prime.length ∧
        (∀ j, j ≠ target.length - k - 1 → c2.getD j 0 = prime.getD j 0) ∧
        (target.length - k - 1 < prime.length →
          c2.getD (target.length - k - 1) 0 =
            (prime.getD (target.length - k - 1) 0) ^^^ 1)) ∧
    (∀ (oracle : Block → Block → Bool) (cblocks : List Block) (bc B n k g : Nat)
        (target : Block) (st : SolveSt),
      ¬(k = 1 ∧ g = (st.primes.getD (n - 1) []).getD (B - k) 0) →
      oracle ((setPrimeByte st.primes (n - 1) (B - k) g).getD (n - 1) []) target = true →
      ((∃ st', bruteStep oracle cblocks bc B n k g target st = .committed st') ↔
        (confirmHit oracle ((setPrimeByte st.primes (n - 1) (B - k) g).getD (n - 1) [])
          target k).1 = true)) := by
  refine ⟨?_, ?_, ?_⟩
  · intro oracle prime target k h
    unfold confirmHit
    dsimp only
    rw [if_pos (show ((target.length : Int) - k - 1 < 0) by omega)]
  · intro oracle prime target k h
    have hf : (((target.length : Int)) - k - 1).toNat = target.length - k - 1 := by omega
    unfold confirmHit
    dsimp only
    rw [if_neg (show ¬((target.length : Int) - k - 1 < 0) by omega)]
    rw [hf]
    refine ⟨_, rfl, rfl, List.length_set _ _ _, ?_, ?_⟩
    · intro j hj
      exact getD_set_ne _ _ _ _ _ (fun e => hj e.symm)
    · intro hlen
      exact getD_set_self _ _ _ _ hlen
  · intro oracle cblocks bc B n k g target st hskip horacle
    unfold bruteStep
    dsimp only
    rw [if_neg hskip]
    simp only [publishSnap, List.getD_eq_getElem?_getD] at horacle ⊢
    rw [horacle]
    rw [if_neg (show ¬(true = false) by decide)]
    split
    · exact iff_of_true ⟨_, rfl⟩ (by assumption)
    · exact iff_of_false (fun ⟨st', he⟩ => StepOut.noConfusion he) (by assumption)

/-- Claim C3 witness: the k = B conjunct at the main run's width-2 hit
probe [0, 3]; the flip conjunct at the width-1 hit probe [5, 0] (flip index
0, probe [4, 0]); and the acceptance conjunct at the first confirmed guess
of the main run. -/
theorem claim_C3_witness :
    (confirmHit mainOracle [0, 3] [9, 11] 2 = (true, -1, none)) ∧
    (∃ c2, confirmHit mainOracle [5, 0] [9, 11] 1 =
        (mainOracle c2 [9, 11], (((9 :: [11]).length : Int) - 1 - 1), some c2) ∧
      c2 = [5, 0].set 0 (([5, 0].getD 0 0) ^^^ 1) ∧
      c2.length = 2 ∧
      (∀ j, j ≠ 0 → c2.getD j 0 = [5, 0].getD j 0) ∧
      (0 < 2 → c2.getD 0 0 = ([5, 0].getD 0 0) ^^^ 1)) ∧
    (∃ st', bruteStep mainOracle mainBlocks 1 2 1 1 0 [9, 11] (initSt mainBlocks) =
      .committed st') := by
  refine ⟨claim_C3.1 mainOracle [0, 3] [9, 11] 2 (by decide), ?_, ?_⟩
  · exact claim_C3.2.1 mainOracle [5, 0] [9, 11] 1 (by decide)
  · exact (claim_C3.2.2 mainOracle mainBlocks 1 2 1 1 0 [9, 11] (initSt mainBlocks)
      (by decide) (by decide)).mpr (by decide)

theorem tailWriteOne_primes_length (n k a : Nat) (st : SolveSt) :
    (tailWriteOne n k a st).primes.length = st.primes.length := by
  unfold tailWriteOne
  cases st.interm n a with
  | none => rfl
  | some v => exact setPrimeByte_length _ _ _ _

theorem tailWriteOne_block_length (n k a : Nat) (st : SolveSt) :
    ((tailWriteOne n k a st).primes.getD (n - 1) []).length =
      (st.primes.getD (n - 1) []).length := by
  unfold tailWriteOne
  cases st.interm n a with
  | none => rfl
  | some v => exact setPrimeByte_block_length _ _ _ _

theorem tailRewrite_frame (n k : Nat) (js : List Nat) :
    ∀ (st : SolveSt) (j : Nat), j ∉ js →
      ((tailRewrite n k js st).primes.getD (n - 1) []).getD j 0 =
        (st.primes.getD (n - 1) []).getD j 0 := by
  induction js with
  | nil => intro st j _; rfl
  | cons a rest ih =>
    intro st j hj
    have hja : j ≠ a := fun e => hj (e ▸ List.mem_cons_self a rest)
    have hjr : j ∉ rest := fun e => hj (List.mem_cons_of_mem a e)
    show ((tailRewrite n k rest (tailWriteOne n k a st)).primes.getD (n - 1) []).getD j 0 = _
    rw [ih (tailWriteOne n k a st) j hjr]
    unfold tailWriteOne
    cases st.interm n a with
    | none => rfl
    | some v => exact setPrimeByte_getD_byte_ne _ _ _ _ _ (fun e => hja e.symm)

theorem tailRewrite_solved (n k : Nat) (js : List Nat) :
    ∀ (st : SolveSt) (j v : Nat), n - 1 < st.primes.length →
      (∀ a ∈ js, a < (st.primes.getD (n - 1) []).length) →
      j ∈ js → st.interm n j = some v →
      ((tailRewrite n k js st).primes.getD (n - 1) []).getD j 0 = v ^^^ k := by
  induction js with
  | nil => intro st j v _ _ hmem _; exact absurd hmem (List.not_mem_nil j)
  | cons a rest ih =>
    intro st j v hb ha hmem hsome
    show ((tailRewrite n k rest (tailWriteOne n k a st)).primes.getD (n - 1) []).getD j 0 = _
    by_cases hjr : j ∈ rest
    · refine ih (tailWriteOne n k a st) j v ?_ ?_ hjr ?_
      · rw [tailWriteOne_primes_length]; exact hb
      · intro x hx
        rw [tailWriteOne_block_length]
        exact ha x (List.mem_cons_of_mem a hx)
      · rw [tailWriteOne_interm]; exact hsome
    · have hja : j = a := by
        rcases List.mem_cons.mp hmem with h | h
        · exact h
        · exact absurd h hjr
      rw [hja] at hsome hjr ⊢
      rw [tailRewrite_frame n k rest (tailWriteOne n k a st) a hjr]
      unfold tailWriteOne
      simp only [hsome]
      exact setPrimeByte_getD_byte_eq _ _ _ _ hb (ha a (List.mem_cons_self a rest))

theorem bruteStep_frame (oracle : Block → Block → Bool) (cblocks : List Block)
    (bc B n k g : Nat) (target : Block) (st : SolveSt) :
    (∀ j, j ≠ B - k →
      (((bruteStep oracle cblocks bc B n k g target st).st).primes.getD (n - 1) []).getD j 0 =
        (st.primes.getD (n - 1) []).getD j 0) ∧
    (∀ a b, ¬(a = n ∧ b = B - k) →
      ((bruteStep oracle cblocks bc B n k g target st).st).interm a b = st.interm a b) := by
  unfold bruteStep
  dsimp only
  split
  · exact ⟨fun j _ => rfl, fun a b _ => rfl⟩
  · split
    · constructor
      · intro j hj
        exact setPrimeByte_getD_byte_ne _ _ _ _ _ (fun e => hj e.symm)
      · intro a b _
        rfl
    · split
      · split
        · constructor
          · intro j hj
            exact setPrimeByte_getD_byte_ne _ _ _ _ _ (fun e => hj e.symm)
          · intro a b hab
            exact store_set2_other _ _ _ _ _ _ hab
        · constructor
          · intro j hj
            exact setPrimeByte_getD_byte_ne _ _ _ _ _ (fun e => hj e.symm)
          · intro a b hab
            exact store_set2_other _ _ _ _ _ _ hab
      · split
        · constructor
          · intro j hj
            exact setPrimeByte_getD_byte_ne _ _ _ _ _ (fun e => hj e.symm)
          · intro a b _
            rfl
        · constructor
          · intro j hj
            exact setPrimeByte_getD_byte_ne _ _ _ _ _ (fun e => hj e.symm)
          · intro a b _
            rfl

theorem bruteLoop_frame (oracle : Block → Block → Bool) (cblocks : List Block)
    (bc B n k : Nat) (target : Block) (gs : List Nat) :
    ∀ st : SolveSt,
    (∀ j, j ≠ B - k →
      (((bruteLoop oracle cblocks bc B n k target gs st).2).primes.getD (n - 1) []).getD j 0 =
        (st.primes.getD (n - 1) []).getD j 0) ∧
    (∀ a b, ¬(a = n ∧ b = B - k) →
      ((bruteLoop oracle cblocks bc B n k target gs st).2).interm a b = st.interm a b) := by
  induction gs with
  | nil => intro st; exact ⟨fun j _ => rfl, fun a b _ => rfl⟩
  | cons g rest ih =>
    intro st
    have hs := bruteStep_frame oracle cblocks bc B n k g target st
    unfold bruteLoop
    cases hb : bruteStep oracle cblocks bc B n k g target st with
    | committed st' =>
      rw [hb] at hs
      exact hs
    | skipped st' =>
      rw [hb] at hs
      exact ⟨fun j hj => ((ih st').1 j hj).trans (hs.1 j hj),
        fun a b hab => ((ih st').2 a b hab).trans (hs.2 a b hab)⟩
    | miss st' =>
      rw [hb] at hs
      exact ⟨fun j hj => ((ih st').1 j hj).trans (hs.1 j hj),
        fun a b hab => ((ih st').2 a b hab).trans (hs.2 a b hab)⟩
    | rejected st' =>
      rw [hb] at hs
      exact ⟨fun j hj => ((ih st').1 j hj).trans (hs.1 j hj),
        fun a b hab => ((ih st').2 a b hab).trans (hs.2 a b hab)⟩

/-- Claim C4: tail programming.  After the tail-rewrite step at width k,
every already-solved tail position j in (B-(k-1)..B) has its working
previous-block byte satisfying byte XOR I[j] = k, and this persists
through the whole width-k guess loop (which also leaves the tail
intermediate bytes untouched). -/
theorem claim_C4 (oracle : Block → Block → Bool) (cblocks : List Block)
    (bc B n k : Nat) (target : Block) (st : SolveSt)
    (hk1 : 1 ≤ k) (hkB : k ≤ B) (hb : n - 1 < st.primes.length)
    (hblen : (st.primes.getD (n - 1) []).length = B) :
    (∀ j v, B - k < j → j < B → st.interm n j = some v →
      (((tailRewrite n k (List.range' (B - (k - 1)) (k - 1)) st).primes.getD
        (n - 1) []).getD j 0) ^^^ v = k) ∧
    (∀ j v, B - k < j → j < B → st.interm n j = some v →
      ((((bruteLoop oracle cblocks bc B n k target (List.range 256)
          (tailRewrite n k (List.range' (B - (k - 1)) (k - 1)) st)).2).primes.getD
        (n - 1) []).getD j 0) ^^^ v = k) ∧
    (∀ j, B - k < j →
      ((bruteLoop oracle cblocks bc B n k target (List.range 256)
        (tailRewrite n k (List.range' (B - (k - 1)) (k - 1)) st)).2).interm n j =
        st.interm n j) := by
  have hmem : ∀ j, B - k < j → j < B → j ∈ List.range' (B - (k - 1)) (k - 1) := by
    intro j h1 h2
    rw [List.mem_range'_1]
    omega
  have hbounds : ∀ a ∈ List.range' (B - (k - 1)) (k - 1),
      a < (st.primes.getD (n - 1) []).length := by
    intro a ha
    rw [List.mem_range'_1] at ha
    rw [hblen]
    omega
  refine ⟨?_, ?_, ?_⟩
  · intro j v h1 h2 hsome
    rw [tailRewrite_solved n k _ st j v hb hbounds (hmem j h1 h2) hsome]
    rw [Nat.xor_comm v k, Nat.xor_assoc, Nat.xor_self, Nat.xor_zero]
  · intro j v h1 h2 hsome
    rw [(bruteLoop_frame oracle cblocks bc B n k target (List.range 256)
      (tailRewrite n k (List.range' (B - (k - 1)) (k - 1)) st)).1 j (by omega)]
    rw [tailRewrite_solved n k _ st j v hb hbounds (hmem j h1 h2) hsome]
    rw [Nat.xor_comm v k, Nat.xor_assoc, Nat.xor_self, Nat.xor_zero]
  · intro j h1
    rw [(bruteLoop_frame oracle cblocks bc B n k target (List.range 256)
      (tailRewrite n k (List.range' (B - (k - 1)) (k - 1)) st)).2 n j
      (fun he => by omega)]
    rw [tailRewrite_interm]

/-- Claim C4 witness: the theorem at the width-2 round of block 1 of the
two-block run, entered in the state left by the width-1 round: the tail
byte at position 1 is programmed to I XOR 2 and stays so through the
guess loop. -/
theorem claim_C4_witness :
    ((((tailRewrite 1 2 (List.range' (2 - (2 - 1)) (2 - 1)) c4WitSt).primes.getD
      0 []).getD 1 0) ^^^ 1 = 2) ∧
    ((((bruteLoop mainOracle mainBlocks 1 2 1 2 [9, 11] (List.range 256)
        (tailRewrite 1 2 (List.range' (2 - (2 - 1)) (2 - 1)) c4WitSt)).2).primes.getD
      0 []).getD 1 0) ^^^ 1 = 2 := by
  have h := claim_C4 mainOracle mainBlocks 1 2 1 2 [9, 11] c4WitSt
    (by decide) (by decide) (by decide) (by decide)
  exact ⟨h.1 1 1 (by decide) (by decide) (by decide),
    h.2.1 1 1 (by decide) (by decide) (by decide)⟩

end PadTickler
